import Mathlib

/-!
Verification development for the resume screening system
(`skill_extractor.py`, `ranking_model.py`).

The text-analysis functions are embedded at the character level: the only
regular expressions the source uses are word-boundary-anchored literals
(`\b` + `re.escape(keyword)` + `\b`), one left-anchored literal prefix
(`\bcertif`), an email shape and a phone-number shape.  Each of those is
translated into an executable search over `List Char`.

The TF-IDF vectorisation and the cosine-similarity matrix are produced by
the external sklearn library; the ranking and duplicate-detection logic is
therefore embedded with the similarity scores as an abstract parameter
(`ℕ → ℚ` resp. `ℕ → ℕ → ℚ`), exactly as `rank_candidates` and
`detect_duplicates` consume them.  Machine floats are modelled by `ℚ`
(and by `ℝ` where a square root is required).
-/

/- ### Python regex primitives (character level) -/

/-- Python `\w` (ASCII range): letters, digits and underscore. -/
def isWordChar (c : Char) : Bool := c.isAlphanum || c == '_'

/-- Evaluate a character predicate on an optional character; an absent
character (before the start or past the end of the text) never satisfies it. -/
def optHolds (p : Char → Bool) : Option Char → Bool
  | none => false
  | some c => p c

/-- Character immediately to the left of position `i`, if any. -/
def leftChar (t : List Char) (i : ℕ) : Option Char :=
  if i = 0 then none else t[i - 1]?

/-- Python `\b` at position `i` of `t`: exactly one of the two adjacent
characters is a word character. -/
def boundaryAt (t : List Char) (i : ℕ) : Bool :=
  optHolds isWordChar (leftChar t i) != optHolds isWordChar t[i]?

/-- The literal `pat` occurs in `t` starting at position `i`. -/
def matchAt (pat t : List Char) (i : ℕ) : Bool :=
  pat.isPrefixOf (t.drop i)

/-- Match of the Python pattern `\b` + `re.escape(pat)` + `\b` at position `i`:
the escaped keyword is a literal, framed by two `\b` assertions. -/
def wbMatchAt (pat t : List Char) (i : ℕ) : Bool :=
  matchAt pat t i && boundaryAt t i && boundaryAt t (i + pat.length)

/-- `re.search` of `\b` + `re.escape(pat)` + `\b` in `t`: some starting
position matches. -/
def wbSearch (pat t : List Char) : Bool :=
  (List.range (t.length + 1)).any (wbMatchAt pat t)

/-- `re.search` of `\b` + `pat` (left boundary only, as in the pattern
`\bcertif` of `QUALITY_CHECKS`). -/
def leftBoundSearch (pat t : List Char) : Bool :=
  (List.range (t.length + 1)).any (fun i => matchAt pat t i && boundaryAt t i)

/-- Characters admitted by the class `[\w\.-]` of the email pattern. -/
def isEmailChar (c : Char) : Bool := isWordChar c || c == '.' || c == '-'

/-- Match existence for the email pattern `[\w\.-]+@[\w\.-]+\.\w+`:
an `@` preceded by a class character, followed by a non-empty run of class
characters, a dot and a word character. -/
def emailSearch (t : List Char) : Bool :=
  (List.range t.length).any fun q =>
    (t[q]? == some '@') && decide (1 ≤ q) && optHolds isEmailChar t[q - 1]? &&
      ((List.range t.length).any fun r =>
        decide (q + 2 ≤ r) && (t[r]? == some '.') &&
          ((List.range' (q + 1) (r - (q + 1))).all fun m => optHolds isEmailChar t[m]?) &&
          optHolds isWordChar t[r + 1]?)

/-- Python `\s` (ASCII range): space, tab, newline, carriage return,
vertical tab, form feed. -/
def isPySpace (c : Char) : Bool :=
  c == ' ' || c == '\t' || c == '\n' || c == '\r' || c == Char.ofNat 11 || c == Char.ofNat 12

/-- Characters admitted by the class `[\d\s\-().]` of the phone pattern. -/
def isPhoneBody (c : Char) : Bool :=
  c.isDigit || isPySpace c || c == '-' || c == '(' || c == ')' || c == '.'

/-- Match of `\d[\d\s\-().]{7,}\d` whose first digit sits at position `p`. -/
def phoneFromDigit (t : List Char) (p : ℕ) : Bool :=
  optHolds Char.isDigit t[p]? &&
    ((List.range (t.length + 1)).any fun m =>
      decide (7 ≤ m) && ((List.range m).all fun k => optHolds isPhoneBody t[p + 1 + k]?) &&
        optHolds Char.isDigit t[p + 1 + m]?)

/-- Match existence for the phone pattern `(\+?\d[\d\s\-().]{7,}\d)`:
an optional plus sign, a digit, at least seven body characters, a digit. -/
def phoneSearch (t : List Char) : Bool :=
  (List.range t.length).any fun i =>
    phoneFromDigit t i || ((t[i]? == some '+') && phoneFromDigit t (i + 1))

/- ### Python string helpers -/

/-- Python `str.lower()` (ASCII range), as a character list. -/
def lowerChars (s : String) : List Char := s.toList.map Char.toLower

/-- Worker for `str.title()`: the boolean records whether the previous
character was cased (a letter). -/
def titleChars : Bool → List Char → List Char
  | _, [] => []
  | prevCased, c :: cs =>
    if c.isAlpha then
      (if prevCased then c.toLower else c.toUpper) :: titleChars true cs
    else
      c :: titleChars false cs

/-- Python `str.title()` (ASCII range): a letter is uppercased when it does
not follow a letter, lowercased otherwise. -/
def pyTitle (s : String) : String := ⟨titleChars false s.toList⟩

/-- Python string comparison: lexicographic on code points. -/
def listCharLe : List Char → List Char → Bool
  | [], _ => true
  | _ :: _, [] => false
  | a :: as, b :: bs => if a < b then true else if b < a then false else listCharLe as bs

/-- Ordering used by Python `sorted` on the extracted skill strings. -/
def StrLE (a b : String) : Prop := listCharLe a.toList b.toList = true

instance : DecidableRel StrLE := fun a b =>
  decidable_of_iff (listCharLe a.toList b.toList = true) Iff.rfl

/- ### Skill taxonomy (skill_extractor.py) -/

/-- The dictionary `SKILL_CATEGORIES`, in source order. -/
def SKILL_CATEGORIES : List (String × List String) :=
  [("Programming Languages",
    ["python", "java", "javascript", "typescript", "c++", "c#", "r", "go",
     "rust", "scala", "kotlin", "swift", "php", "ruby", "matlab"]),
   ("Web Development",
    ["html", "css", "react", "angular", "vue", "node", "django", "flask",
     "fastapi", "bootstrap", "tailwind", "jquery", "rest api", "graphql"]),
   ("Data Science & ML",
    ["machine learning", "deep learning", "nlp", "natural language processing",
     "tensorflow", "keras", "pytorch", "scikit-learn", "sklearn", "xgboost",
     "pandas", "numpy", "scipy", "data science", "computer vision", "bert",
     "transformer", "neural network", "reinforcement learning"]),
   ("Databases",
    ["sql", "mysql", "postgresql", "mongodb", "redis", "sqlite", "oracle",
     "cassandra", "elasticsearch", "nosql", "firebase"]),
   ("Cloud & DevOps",
    ["aws", "azure", "gcp", "docker", "kubernetes", "ci/cd", "jenkins",
     "terraform", "ansible", "linux", "git", "github", "gitlab", "devops"]),
   ("Data Analytics & BI",
    ["tableau", "power bi", "excel", "looker", "data visualization",
     "matplotlib", "seaborn", "plotly", "statistics", "data analysis"]),
   ("Soft Skills",
    ["communication", "leadership", "teamwork", "problem solving",
     "critical thinking", "project management", "agile", "scrum",
     "time management", "collaboration"])]

/-- Flattened skill list `ALL_SKILLS`, in source order. -/
def ALL_SKILLS : List String := SKILL_CATEGORIES.flatMap (fun c => c.2)

/-- Deduplicate and sort, as Python `sorted(set(xs))` on strings. -/
def sortedSet (xs : List String) : List String :=
  List.insertionSort StrLE xs.dedup

/-- Embedding of `extract_skills`: empty text gives no skills, otherwise
every taxonomy keyword whose pattern `\b` + `re.escape(skill)` + `\b`
matches the lowercased text is collected in title case, deduplicated and
sorted. -/
def extract_skills (text : String) : List String :=
  if text = "" then []
  else
    sortedSet (((ALL_SKILLS.filter fun sk => wbSearch sk.toList (lowerChars text)).map pyTitle))

/-- Whole-word occurrence as the specification words it: the keyword occurs
literally (case-insensitively) with no word character directly adjacent on
either side.  This is the spec-side comparison point for the code pattern
`\b...\b`, which instead demands a word-ness flip at both edges. -/
def specWholeWordOccurs (pat t : List Char) : Bool :=
  (List.range (t.length + 1)).any fun i =>
    matchAt pat t i && !optHolds isWordChar (leftChar t i) &&
      !optHolds isWordChar t[i + pat.length]?

/- ### Resume quality scoring (skill_extractor.py) -/

/-- Embedding of the table `QUALITY_CHECKS`: section name, weight, and the
disjunction of its detection patterns as an executable predicate on the
lowercased text.  The pattern `\bskills?\b` is expanded into its two
literal alternatives `skill` and `skills`. -/
def QUALITY_CHECKS : List (String × ℚ × (List Char → Bool)) :=
  [("Contact Information", 2, fun t => emailSearch t || phoneSearch t),
   ("Skills Section", 2, fun t =>
     wbSearch "skill".toList t || wbSearch "skills".toList t ||
       wbSearch "technical skills".toList t || wbSearch "core competencies".toList t ||
       wbSearch "proficiencies".toList t),
   ("Education", 2, fun t =>
     wbSearch "education".toList t || wbSearch "degree".toList t ||
       wbSearch "bachelor".toList t || wbSearch "master".toList t ||
       wbSearch "phd".toList t || wbSearch "university".toList t ||
       wbSearch "college".toList t),
   ("Work Experience", 2, fun t =>
     wbSearch "experience".toList t || wbSearch "work history".toList t ||
       wbSearch "employment".toList t || wbSearch "job".toList t ||
       wbSearch "intern".toList t || wbSearch "position".toList t),
   ("Summary / Objective", 1, fun t =>
     wbSearch "summary".toList t || wbSearch "objective".toList t ||
       wbSearch "profile".toList t || wbSearch "about me".toList t),
   ("Projects / Certifications", 1, fun t =>
     wbSearch "project".toList t || leftBoundSearch "certif".toList t ||
       wbSearch "achievement".toList t || wbSearch "award".toList t)]

/-- Round `q` to the nearest multiple of `1/d`, computed on numerator and
denominator with integer floor division so that it evaluates inside the
kernel.  `pyRoundTo_eq` below identifies it with `round (q * d) / d`.
Python rounds half-ticks to even; that tie rule is not exercised by any
value these theorems evaluate, so nearest-integer rounding is the model. -/
def pyRoundTo (d : ℕ) (q : ℚ) : ℚ :=
  mkRat ((2 * (q.num * d) + (q.den : ℤ)) / (2 * (q.den : ℤ))) d

/-- Python `round(x, 1)`, used on quality scores. -/
def round1 (q : ℚ) : ℚ := pyRoundTo 10 q

/-- Python `round(x, 4)`, used on similarity scores. -/
def round4 (q : ℚ) : ℚ := pyRoundTo 10000 q

theorem pyRoundTo_eq (d : ℕ) (q : ℚ) :
    pyRoundTo d q = ((round (q * d) : ℤ) : ℚ) / d := by
  have hden : ((q.den : ℚ)) ≠ 0 := Nat.cast_ne_zero.mpr q.den_nz
  have hnum : ((q.num : ℤ) : ℚ) = q * (q.den : ℚ) :=
    (div_eq_iff hden).mp (Rat.num_div_den q)
  have hB : (((2 * q.den : ℕ)) : ℚ) ≠ 0 := by
    have : (2 * q.den : ℕ) ≠ 0 := by positivity
    exact Nat.cast_ne_zero.mpr this
  have hq : q * d + 1 / 2 = (((2 * (q.num * d) + (q.den : ℤ)) : ℤ) : ℚ) / (((2 * q.den : ℕ)) : ℚ) := by
    rw [eq_div_iff hB]
    push_cast
    linear_combination (-2 * (d : ℚ)) * hnum
  have hfloor : round (q * d) = (2 * (q.num * d) + (q.den : ℤ)) / ((2 * q.den : ℕ) : ℤ) := by
    rw [round_eq, hq, Rat.floor_intCast_div_natCast]
  have hcast : ((2 * q.den : ℕ) : ℤ) = 2 * (q.den : ℤ) := by push_cast; ring
  rw [pyRoundTo, Rat.mkRat_eq_div, hfloor, hcast]

/-- Result record of `analyze_resume_quality`: the score, the breakdown rows
`(section, found, weight)` in checklist order, and the feedback strings. -/
structure QualityResult where
  score : ℚ
  breakdown : List (String × Bool × ℚ)
  feedback : List String
deriving DecidableEq

/-- Total checklist weight (2+2+2+2+1+1 = 10). -/
def totalWeight : ℚ := (QUALITY_CHECKS.map fun c => c.2.1).sum

/-- Sum of the weights of the sections detected in the lowercased text. -/
def earnedWeight (t : List Char) : ℚ :=
  ((QUALITY_CHECKS.filter fun c => c.2.2 t).map fun c => c.2.1).sum

/-- Embedding of `analyze_resume_quality`. -/
def analyze_resume_quality (text : String) : QualityResult :=
  if text = "" then ⟨0, [], ["No text found in resume."]⟩
  else
    let tl := lowerChars text
    { score := round1 ((earnedWeight tl / totalWeight) * 10),
      breakdown := QUALITY_CHECKS.map fun c => (c.1, c.2.2 tl, c.2.1),
      feedback := (QUALITY_CHECKS.filter fun c => !(c.2.2 tl)).map fun c =>
        "Add a \x27" ++ c.1 ++ "\x27 section to improve your resume score." }

/-- Embedding of `get_quality_label`. -/
def get_quality_label (score : ℚ) : String :=
  if score ≥ 8 then "🌟 Excellent"
  else if score ≥ 6 then "✅ Good"
  else if score ≥ 4 then "⚠️ Average"
  else "❌ Needs Work"

/- ### Ranking pipeline (ranking_model.py) -/

/-- One parsed resume as consumed by `rank_candidates`: a dict with keys
`name` and `text`. -/
structure ResumeInput where
  name : String
  text : String
deriving DecidableEq

/-- One row of the results DataFrame built by `rank_candidates`.  `idx` is
the DataFrame row index before sorting, i.e. the position of the resume in
the input list; `rank` is the column inserted after sorting. -/
structure CandRow where
  rank : ℕ
  name : String
  score : ℚ
  skills_str : String
  skill_count : ℕ
  quality : ℚ
  label : String
  skills_list : List String
  quality_detail : QualityResult
  idx : ℕ
deriving DecidableEq

/-- The row built for the resume at input position `i`, given its raw
cosine similarity against the job description. -/
def mkCandRow (i : ℕ) (r : ResumeInput) (simScore : ℚ) : CandRow :=
  let q := analyze_resume_quality r.text
  let sks := extract_skills r.text
  { rank := 0, name := r.name, score := round4 simScore,
    skills_str := if sks = [] then "None detected" else String.intercalate ", " sks,
    skill_count := sks.length, quality := q.score, label := get_quality_label q.score,
    skills_list := sks, quality_detail := q, idx := i }

/-- Build the pre-sort DataFrame rows, numbering input positions from `i`. -/
def buildRows (simScores : ℕ → ℚ) : ℕ → List ResumeInput → List CandRow
  | _, [] => []
  | i, r :: rs => mkCandRow i r (simScores i) :: buildRows simScores (i + 1) rs

/-- Sort order of `sort_values(by=[Similarity Score, Quality Score],
ascending=[False, False])`.  Pandas performs a stable lexicographic sort
(`np.lexsort`), which is modelled by adding the pre-sort row index as the
final tie-break key; on rows with pairwise distinct `idx` this linear
order reproduces the stable sort exactly. -/
def RowLE (r s : CandRow) : Prop :=
  s.score < r.score ∨
    (r.score = s.score ∧ (s.quality < r.quality ∨ (r.quality = s.quality ∧ r.idx ≤ s.idx)))

instance : DecidableRel RowLE := fun r s =>
  decidable_of_iff
    (s.score < r.score ∨
      (r.score = s.score ∧ (s.quality < r.quality ∨ (r.quality = s.quality ∧ r.idx ≤ s.idx))))
    Iff.rfl

/-- The sort key of a row, as a lexicographic triple (scores negated to
encode the descending direction). -/
def rowKey (r : CandRow) : ℚ ×ₗ (ℚ ×ₗ ℕ) := toLex (-r.score, toLex (-r.quality, r.idx))

theorem rowLE_iff (r s : CandRow) : RowLE r s ↔ rowKey r ≤ rowKey s := by
  unfold RowLE rowKey
  rw [Prod.Lex.le_iff, Prod.Lex.le_iff]
  dsimp only
  rw [neg_lt_neg_iff, neg_lt_neg_iff, neg_inj, neg_inj]

instance : IsTrans CandRow RowLE :=
  ⟨fun a b c hab hbc =>
    (rowLE_iff a c).mpr (le_trans ((rowLE_iff a b).mp hab) ((rowLE_iff b c).mp hbc))⟩

instance : IsTotal CandRow RowLE :=
  ⟨fun a b => (le_total (rowKey a) (rowKey b)).imp (rowLE_iff a b).mpr (rowLE_iff b a).mpr⟩

/-- Insert the `Rank` column: consecutive integers starting at `n`,
assigned in sorted position order (`range(1, len(results_df) + 1)`). -/
def assignRanks : ℕ → List CandRow → List CandRow
  | _, [] => []
  | n, r :: rs => { r with rank := n } :: assignRanks (n + 1) rs

/-- Embedding of `rank_candidates`.  The TF-IDF cosine similarity of the
job description against the resume at input position `i` is the abstract
parameter `simScores i` (it is produced by the external sklearn library);
the job description influences the result only through those scores. -/
def rank_candidates (simScores : ℕ → ℚ) (resumes : List ResumeInput) : List CandRow :=
  assignRanks 1 (List.insertionSort RowLE (buildRows simScores 0 resumes))

/-- Embedding of `rank_candidates` together with the input validation of
its sklearn calls: `cosine_similarity(jd_vector, resume_vectors)` rejects
a resume matrix with zero rows (`check_array` requires at least one
sample), so an empty resume list raises instead of producing an empty
DataFrame.  (With an empty or all-stopword corpus the earlier
`fit_transform` call raises an empty-vocabulary error instead; either
way the call raises, which is all this model needs to record.) -/
def rank_candidates_checked (simScores : ℕ → ℚ) (_jd : String) (resumes : List ResumeInput) :
    Except String (List CandRow) :=
  if resumes.length = 0 then
    Except.error "ValueError: Found array with 0 sample(s) while a minimum of 1 is required"
  else
    Except.ok (rank_candidates simScores resumes)

/-- Embedding of `get_top_recommendations`: `DataFrame.head(top_n)`, which
has Python slice semantics `df[:top_n]` (a negative argument drops that
many rows from the end instead of clamping to zero). -/
def get_top_recommendations {α : Type} (results : List α) (top_n : ℤ) : List α :=
  if 0 ≤ top_n then results.take top_n.toNat
  else results.take (results.length - (-top_n).toNat)

/- ### Duplicate detection (ranking_model.py) -/

/-- One duplicate pair record `{candidate_a, candidate_b, similarity}`. -/
structure DupRecord where
  candidate_a : String
  candidate_b : String
  similarity : ℚ
deriving DecidableEq

/-- Embedding of `detect_duplicates`.  The pairwise cosine similarity
matrix over the resume-only corpus is the abstract parameter `sim`
(produced by sklearn); the double loop over `i < j` is embedded as a
`flatMap` over the same index ranges. -/
def detect_duplicates (resumes : List ResumeInput) (sim : ℕ → ℕ → ℚ) (threshold : ℚ) :
    List DupRecord :=
  if resumes.length < 2 then []
  else
    let names := resumes.map fun r => r.name
    let n := resumes.length
    (List.range n).flatMap fun i =>
      (List.range' (i + 1) (n - (i + 1))).filterMap fun j =>
        let s := round4 (sim i j)
        if threshold ≤ s then some ⟨names.getD i "", names.getD j "", s⟩ else none

/-- The index pairs `(i, j)` with `i < j < n`, in the visit order of the
double loop of `detect_duplicates`. -/
def ltPairs (n : ℕ) : List (ℕ × ℕ) :=
  (List.range n).flatMap fun i => (List.range' (i + 1) (n - (i + 1))).map fun j => (i, j)

/- ### Cosine similarity (sklearn semantics) -/

/-- Euclidean norm of a document vector. -/
noncomputable def l2norm {n : ℕ} (v : Fin n → ℝ) : ℝ := Real.sqrt (∑ i, v i ^ 2)

/-- Row normalisation as performed by sklearn `normalize`: rows are divided
by their norm, with zero norms replaced by 1 beforehand, so an all-zero
row stays all-zero instead of raising a division error. -/
noncomputable def sklearnNormalize {n : ℕ} (v : Fin n → ℝ) : Fin n → ℝ :=
  fun i => v i / (if l2norm v = 0 then 1 else l2norm v)

/-- Embedding of `compute_cosine_similarity` for one vector pair: sklearn
`cosine_similarity` normalises both vectors and takes the dot product. -/
noncomputable def compute_cosine_similarity {n : ℕ} (a b : Fin n → ℝ) : ℝ :=
  ∑ i, sklearnNormalize a i * sklearnNormalize b i

/- ### Claim C6: quality labels -/

/-- C6, counterexample: the label for a score of 9 is the emoji-prefixed
string, not exactly the bare word "Excellent" claimed. -/
theorem C6_label_not_bare : get_quality_label 9 ≠ "Excellent" := by decide

/-- C6, amended: `get_quality_label` is total over all scores with no gaps
and returns exactly "🌟 Excellent" for score ≥ 8, "✅ Good" on [6, 8),
"⚠️ Average" on [4, 6), and "❌ Needs Work" below 4. -/
theorem C6_label_total (s : ℚ) :
    (8 ≤ s → get_quality_label s = "🌟 Excellent") ∧
    (6 ≤ s → s < 8 → get_quality_label s = "✅ Good") ∧
    (4 ≤ s → s < 6 → get_quality_label s = "⚠️ Average") ∧
    (s < 4 → get_quality_label s = "❌ Needs Work") := by
  unfold get_quality_label
  split_ifs with h1 h2 h3 <;> refine ⟨?_, ?_, ?_, ?_⟩ <;> intros <;> first | rfl | linarith

/-- C6, witness: the four label bands evaluated at 9, 7, 5 and 1. -/
theorem C6_label_total_witness :
    ((8 : ℚ) ≤ 9 ∧ get_quality_label 9 = "🌟 Excellent") ∧
    ((6 : ℚ) ≤ 7 ∧ (7 : ℚ) < 8 ∧ get_quality_label 7 = "✅ Good") ∧
    ((4 : ℚ) ≤ 5 ∧ (5 : ℚ) < 6 ∧ get_quality_label 5 = "⚠️ Average") ∧
    ((1 : ℚ) < 4 ∧ get_quality_label 1 = "❌ Needs Work") :=
  ⟨⟨by decide, (C6_label_total 9).1 (by decide)⟩,
   ⟨by decide, by decide, (C6_label_total 7).2.1 (by decide) (by decide)⟩,
   ⟨by decide, by decide, (C6_label_total 5).2.2.1 (by decide) (by decide)⟩,
   ⟨by decide, (C6_label_total 1).2.2.2 (by decide)⟩⟩

/- ### Claim C9: top-N recommendations -/

/-- C9, counterexample: with three ranked rows and `top_n = -1` the code
returns the first two rows (Python slice semantics of `head`), not the
zero rows that clamping `top_n` to `[0, 3]` would give. -/
theorem C9_head_not_clamped :
    get_top_recommendations ([1, 2, 3] : List ℕ) (-1) ≠
      List.take (min (max (-1 : ℤ) 0) 3).toNat [1, 2, 3] := by decide

/-- C9, amended: `get_top_recommendations` is always a prefix-take with no
re-sorting, but follows Python slice semantics: for `top_n ≥ 0` it returns
the first `min(top_n, L)` rows, while a negative `top_n` returns the first
`L - |top_n|` rows (truncated at zero) rather than clamping to zero rows. -/
theorem C9_head_slice {α : Type} (results : List α) (top_n : ℤ) :
    get_top_recommendations results top_n =
      results.take (if 0 ≤ top_n then top_n.toNat else results.length - (-top_n).toNat) ∧
    (get_top_recommendations results top_n).length =
      (if 0 ≤ top_n then min top_n.toNat results.length
        else results.length - (-top_n).toNat) ∧
    (∃ rest, get_top_recommendations results top_n ++ rest = results) := by
  refine ⟨?_, ?_, ?_⟩
  · unfold get_top_recommendations
    split <;> rfl
  · unfold get_top_recommendations
    split
    · exact List.length_take _ _
    · rw [List.length_take]
      exact min_eq_left (Nat.sub_le _ _)
  · unfold get_top_recommendations
    split
    · exact ⟨results.drop top_n.toNat, List.take_append_drop _ _⟩
    · exact ⟨results.drop (results.length - (-top_n).toNat), List.take_append_drop _ _⟩

/- ### Claim C8: empty resume list -/

/-- C8: calling `rank_candidates` with an empty resume list does not return
an empty result set; the sklearn validation inside the pipeline raises
(the resume vector matrix has zero samples), which the checked embedding
surfaces as an error value for every job description. -/
theorem C8_empty_resumes_raise (simScores : ℕ → ℚ) (jd : String) :
    rank_candidates_checked simScores jd [] =
      Except.error "ValueError: Found array with 0 sample(s) while a minimum of 1 is required" :=
  rfl

/- ### Claim C7: zero-vector cosine similarity -/

/-- C7: cosine similarity against an all-zero document vector is 0.0 in
both argument orders, with no division error: the zero-norm guard of the
sklearn normalisation leaves the zero vector unchanged and its dot product
with anything is zero. -/
theorem C7_zero_vector_similarity {n : ℕ} (a b : Fin n → ℝ) (h : a = 0) :
    compute_cosine_similarity a b = 0 ∧ compute_cosine_similarity b a = 0 := by
  subst h
  constructor <;> simp [compute_cosine_similarity, sklearnNormalize]

/-- C7, witness: the zero vector against the all-ones vector in dimension 2. -/
theorem C7_zero_vector_similarity_witness :
    compute_cosine_similarity (0 : Fin 2 → ℝ) (fun _ => 1) = 0 ∧
    compute_cosine_similarity (fun _ => 1) (0 : Fin 2 → ℝ) = 0 :=
  C7_zero_vector_similarity (0 : Fin 2 → ℝ) (fun _ => 1) rfl

/- ### Claim C5: quality score aggregation -/

theorem quality_weights_nonneg : ∀ c ∈ QUALITY_CHECKS, 0 ≤ c.2.1 := by
  intro c hc
  simp only [QUALITY_CHECKS, List.mem_cons, List.not_mem_nil, or_false] at hc
  rcases hc with rfl | rfl | rfl | rfl | rfl | rfl <;> norm_num

theorem totalWeight_eq : totalWeight = 10 := by
  simp [totalWeight, QUALITY_CHECKS]
  norm_num

theorem earnedWeight_bounds (l : List (String × ℚ × (List Char → Bool))) (t : List Char)
    (h : ∀ c ∈ l, 0 ≤ c.2.1) :
    0 ≤ ((l.filter fun c => c.2.2 t).map fun c => c.2.1).sum ∧
      ((l.filter fun c => c.2.2 t).map fun c => c.2.1).sum ≤ (l.map fun c => c.2.1).sum := by
  induction l with
  | nil => simp
  | cons c cs ih =>
    have h0 : 0 ≤ c.2.1 := h c (List.mem_cons_self _ _)
    have hcs : ∀ x ∈ cs, 0 ≤ x.2.1 := fun x hx => h x (List.mem_cons_of_mem _ hx)
    obtain ⟨ih1, ih2⟩ := ih hcs
    by_cases hc : c.2.2 t
    · simp only [List.filter_cons, hc, if_true, List.map_cons, List.sum_cons]
      exact ⟨add_nonneg h0 ih1, add_le_add_left ih2 _⟩
    · simp only [List.filter_cons, hc, if_false, List.map_cons, List.sum_cons]
      exact ⟨ih1, le_add_of_nonneg_of_le h0 ih2⟩

theorem round1_bounds {q : ℚ} (h0 : 0 ≤ q) (h10 : q ≤ 10) :
    0 ≤ round1 q ∧ round1 q ≤ 10 := by
  have heq : round1 q = ((round (q * 10) : ℤ) : ℚ) / 10 := pyRoundTo_eq 10 q
  have hlow : (0 : ℤ) ≤ round (q * 10) := by
    rw [round_eq]
    have h1 : ⌊(1 / 2 : ℚ)⌋ = 0 := by
      apply Int.floor_eq_iff.mpr
      constructor <;> norm_num
    calc (0 : ℤ) = ⌊(1 / 2 : ℚ)⌋ := h1.symm
      _ ≤ ⌊q * 10 + 1 / 2⌋ := Int.floor_mono (by linarith)
  have hhigh : round (q * 10) ≤ 100 := by
    rw [round_eq]
    have h1 : ⌊(201 / 2 : ℚ)⌋ = 100 := by
      apply Int.floor_eq_iff.mpr
      constructor <;> norm_num
    calc ⌊q * 10 + 1 / 2⌋ ≤ ⌊(201 / 2 : ℚ)⌋ := Int.floor_mono (by linarith)
      _ = 100 := h1
  rw [heq]
  constructor
  · positivity
  · rw [div_le_iff₀ (by norm_num : (0:ℚ) < 10)]
    exact_mod_cast hhigh

/-- C5: for non-empty text the quality score equals the sum of the weights
of the detected sections, divided by the total weight and scaled to 10,
rounded to one decimal (hence in [0, 10]); one feedback line is appended
per missing section and the breakdown lists every section with its found
flag and weight; empty input yields score 0.0, an empty breakdown and the
single no-text feedback entry. -/
theorem C5_quality_score_spec :
    totalWeight = 10 ∧
    (∀ text : String, text ≠ "" →
      (analyze_resume_quality text).score =
          round1 ((earnedWeight (lowerChars text) / totalWeight) * 10) ∧
        0 ≤ (analyze_resume_quality text).score ∧
        (analyze_resume_quality text).score ≤ 10 ∧
        (analyze_resume_quality text).feedback =
          ((QUALITY_CHECKS.filter fun c => !(c.2.2 (lowerChars text))).map fun c =>
            "Add a \x27" ++ c.1 ++ "\x27 section to improve your resume score.") ∧
        (analyze_resume_quality text).breakdown =
          (QUALITY_CHECKS.map fun c => (c.1, c.2.2 (lowerChars text), c.2.1))) ∧
    analyze_resume_quality "" = ⟨0, [], ["No text found in resume."]⟩ := by
  refine ⟨totalWeight_eq, fun text h => ?_, rfl⟩
  have hscore : (analyze_resume_quality text).score =
      round1 ((earnedWeight (lowerChars text) / totalWeight) * 10) := by
    rw [analyze_resume_quality, if_neg h]
  have hval : earnedWeight (lowerChars text) / totalWeight * 10 =
      earnedWeight (lowerChars text) := by
    rw [totalWeight_eq]
    field_simp
  have hbnd := earnedWeight_bounds QUALITY_CHECKS (lowerChars text) quality_weights_nonneg
  have hb2 : earnedWeight (lowerChars text) ≤ 10 := by
    have := hbnd.2
    rw [show ((QUALITY_CHECKS.map fun c => c.2.1).sum) = totalWeight from rfl, totalWeight_eq] at this
    exact this
  have hround := @round1_bounds (earnedWeight (lowerChars text)) hbnd.1 hb2
  refine ⟨hscore, ?_, ?_, ?_, ?_⟩
  · rw [hscore, hval]
    exact hround.1
  · rw [hscore, hval]
    exact hround.2
  · rw [analyze_resume_quality, if_neg h]
  · rw [analyze_resume_quality, if_neg h]

/-- C5, witness: the specification conjunction evaluated at the one-word
resume text "skills". -/
theorem C5_quality_score_spec_witness :
    (analyze_resume_quality "skills").score =
        round1 ((earnedWeight (lowerChars "skills") / totalWeight) * 10) ∧
      0 ≤ (analyze_resume_quality "skills").score ∧
      (analyze_resume_quality "skills").score ≤ 10 ∧
      (analyze_resume_quality "skills").feedback =
        ((QUALITY_CHECKS.filter fun c => !(c.2.2 (lowerChars "skills"))).map fun c =>
          "Add a \x27" ++ c.1 ++ "\x27 section to improve your resume score.") ∧
      (analyze_resume_quality "skills").breakdown =
        (QUALITY_CHECKS.map fun c => (c.1, c.2.2 (lowerChars "skills"), c.2.1)) :=
  C5_quality_score_spec.2.1 "skills" (by decide)

/- ### Claim C4: skill extraction -/

/-- C4: the taxonomy keyword "c++" occurs in the text "c++ developer" as a
literal whole word (the spec-side reading of whole-word matching), yet
`extract_skills` returns nothing for that text: the trailing `\b` of the
compiled pattern cannot match after the non-word character `+`, so the
skills `c++` and `c#` are never found in ordinary text.  The remaining
parts of the claim do hold on the code: special characters are treated
literally, "r" is not matched inside "for", and the scenario text yields
exactly the four sorted title-cased skills. -/
theorem C4_cpp_whole_word_missed :
    specWholeWordOccurs "c++".toList (lowerChars "c++ developer") = true ∧
    "c++" ∈ ALL_SKILLS ∧
    extract_skills "c++ developer" = [] ∧
    extract_skills "for" = [] ∧
    extract_skills "Skills: Python, React, AWS, Docker" = ["Aws", "Docker", "Python", "React"] := by
  refine ⟨by decide, by decide, by decide, by decide, by decide⟩

/- ### Claims C1 and C2: sorting and rank assignment -/

theorem buildRows_length (s : ℕ → ℚ) (l : List ResumeInput) :
    ∀ i, (buildRows s i l).length = l.length := by
  induction l with
  | nil => intro i; rfl
  | cons r rs ih => intro i; simp only [buildRows, List.length_cons, ih]

theorem buildRows_map_idx (s : ℕ → ℚ) (l : List ResumeInput) :
    ∀ i, (buildRows s i l).map (fun r => r.idx) = List.range' i l.length := by
  induction l with
  | nil => intro i; rfl
  | cons r rs ih =>
    intro i
    simp only [buildRows, List.map_cons, List.length_cons, List.range'_succ, ih]
    rfl

theorem assignRanks_length (l : List CandRow) : ∀ n, (assignRanks n l).length = l.length := by
  induction l with
  | nil => intro n; rfl
  | cons r rs ih => intro n; simp only [assignRanks, List.length_cons, ih]

theorem assignRanks_map_rank (l : List CandRow) :
    ∀ n, (assignRanks n l).map (fun r => r.rank) = List.range' n l.length := by
  induction l with
  | nil => intro n; rfl
  | cons r rs ih =>
    intro n
    simp only [assignRanks, List.map_cons, List.length_cons, List.range'_succ, ih]

theorem mem_assignRanks (b : CandRow) (l : List CandRow) :
    ∀ n, b ∈ assignRanks n l → ∃ x ∈ l, ∃ k, b = { x with rank := k } := by
  induction l with
  | nil => intro n h; cases h
  | cons r rs ih =>
    intro n h
    rcases List.mem_cons.mp h with h1 | h2
    · exact ⟨r, List.mem_cons_self _ _, n, h1⟩
    · obtain ⟨x, hx, k, hk⟩ := ih (n + 1) h2
      exact ⟨x, List.mem_cons_of_mem _ hx, k, hk⟩

theorem assignRanks_pairwise {R : CandRow → CandRow → Prop}
    (hR : ∀ a b m k, R a b → R { a with rank := m } { b with rank := k })
    (l : List CandRow) : ∀ n, l.Pairwise R → (assignRanks n l).Pairwise R := by
  induction l with
  | nil => intro n _; exact List.Pairwise.nil
  | cons r rs ih =>
    intro n h
    obtain ⟨hr, hrs⟩ := List.pairwise_cons.mp h
    refine List.pairwise_cons.mpr ⟨?_, ih (n + 1) hrs⟩
    intro b hb
    obtain ⟨x, hx, k, hk⟩ := mem_assignRanks b rs (n + 1) hb
    rw [hk]
    exact hR r x n k (hr x hx)

/-- C1: the output of `rank_candidates` is sorted by similarity score
descending, ties broken by quality score descending, and rows tying on
both scores appear in input order: for any two output rows in order,
either the first has the strictly larger similarity score, or the scores
tie and the first has the strictly larger quality score, or both scores
tie and the resume of the first row preceded that of the second in the input list
(`idx` is the input position). -/
theorem C1_rank_candidates_sorted (simScores : ℕ → ℚ) (resumes : List ResumeInput) :
    (rank_candidates simScores resumes).Pairwise fun r s =>
      s.score < r.score ∨
        (r.score = s.score ∧
          (s.quality < r.quality ∨ (r.quality = s.quality ∧ r.idx < s.idx))) := by
  unfold rank_candidates
  have hsorted : (List.insertionSort RowLE (buildRows simScores 0 resumes)).Pairwise RowLE :=
    List.sorted_insertionSort RowLE (buildRows simScores 0 resumes)
  have hperm := List.perm_insertionSort RowLE (buildRows simScores 0 resumes)
  have hidx_nodup :
      ((List.insertionSort RowLE (buildRows simScores 0 resumes)).map fun r => r.idx).Nodup := by
    have hrows : ((buildRows simScores 0 resumes).map fun r => r.idx).Nodup := by
      rw [buildRows_map_idx]
      exact List.nodup_range' _ _
    exact ((hperm.map fun r => r.idx).nodup_iff).mpr hrows
  have hidx_pw : (List.insertionSort RowLE (buildRows simScores 0 resumes)).Pairwise
      fun r s => r.idx ≠ s.idx := List.pairwise_map.mp hidx_nodup
  refine assignRanks_pairwise (fun a b m k h => h) _ 1 ((hsorted.and hidx_pw).imp ?_)
  rintro a b ⟨hle, hne⟩
  rcases hle with h | ⟨heq, h2⟩
  · exact Or.inl h
  · rcases h2 with h | ⟨heqq, hidx⟩
    · exact Or.inr ⟨heq, Or.inl h⟩
    · exact Or.inr ⟨heq, Or.inr ⟨heqq, lt_of_le_of_ne hidx hne⟩⟩

/-- C2: `rank_candidates` returns exactly one row per input resume, and the
Rank column is exactly the sequence 1..N in sorted position order, with no
gaps, repeats or shared ranks. -/
theorem C2_rank_candidates_ranks (simScores : ℕ → ℚ) (resumes : List ResumeInput) :
    (rank_candidates simScores resumes).length = resumes.length ∧
    (rank_candidates simScores resumes).map (fun r => r.rank) =
      List.range' 1 resumes.length := by
  have hlen : (List.insertionSort RowLE (buildRows simScores 0 resumes)).length =
      resumes.length := by
    rw [(List.perm_insertionSort RowLE _).length_eq, buildRows_length]
  constructor
  · rw [rank_candidates, assignRanks_length, hlen]
  · rw [rank_candidates, assignRanks_map_rank, hlen]

/- ### Claims C3 and C10: duplicate detection -/

theorem filterMap_if_eq_filter_map {α β : Type _} (p : α → Prop) [DecidablePred p] (f : α → β) :
    ∀ l : List α, (l.filterMap fun a => if p a then some (f a) else none) =
      (l.filter fun a => decide (p a)).map f := by
  intro l
  induction l with
  | nil => rfl
  | cons a l ih =>
    by_cases h : p a
    · simp [List.filterMap_cons, List.filter_cons, h, ih]
    · simp [List.filterMap_cons, List.filter_cons, h, ih]

theorem detect_duplicates_eq (resumes : List ResumeInput) (sim : ℕ → ℕ → ℚ) (θ : ℚ) :
    detect_duplicates resumes sim θ =
      ((ltPairs resumes.length).filter fun p => decide (θ ≤ round4 (sim p.1 p.2))).map
        fun p => ⟨(resumes.map fun r => r.name).getD p.1 "",
          (resumes.map fun r => r.name).getD p.2 "", round4 (sim p.1 p.2)⟩ := by
  by_cases h : resumes.length < 2
  · have h01 : resumes.length = 0 ∨ resumes.length = 1 := by omega
    rw [detect_duplicates, if_pos h]
    rcases h01 with h0 | h1
    · rw [h0]; rfl
    · rw [h1]; rfl
  · rw [detect_duplicates, if_neg h, ltPairs, List.filter_flatMap, List.map_flatMap]
    dsimp only
    congr 1
    funext i
    rw [List.filter_map, List.map_map,
      filterMap_if_eq_filter_map (fun j => θ ≤ round4 (sim i j))]
    simp only [Function.comp_def]

theorem ltPairs_mem (n i j : ℕ) : (i, j) ∈ ltPairs n ↔ i < j ∧ j < n := by
  unfold ltPairs
  simp only [List.mem_flatMap, List.mem_map, List.mem_range, List.mem_range'_1]
  constructor
  · rintro ⟨a, ha, b, hb, heq⟩
    cases heq
    omega
  · rintro ⟨hij, hjn⟩
    exact ⟨i, by omega, j, ⟨by omega, by omega⟩, rfl⟩

theorem ltPairs_nodup (n : ℕ) : (ltPairs n).Nodup := by
  unfold ltPairs
  rw [List.nodup_flatMap]
  constructor
  · intro i _
    exact (List.nodup_range' _ _).map fun a b hab => by simpa using congrArg Prod.snd hab
  · refine (List.pairwise_lt_range n).imp ?_
    intro a b hab x hxa hxb
    obtain ⟨ja, _, rfl⟩ := List.mem_map.mp hxa
    obtain ⟨jb, _, hx⟩ := List.mem_map.mp hxb
    injection hx with h1 h2
    omega

/-- C3, counterexample: with two resumes whose exact pairwise similarity is
0.89996, strictly below the threshold 0.90, `detect_duplicates` still
reports the pair (the comparison is applied to the value rounded to four
decimals, which is exactly 0.9), so the output is not restricted to pairs
whose similarity is at least the threshold. -/
theorem C3_pair_below_threshold_reported :
    (fun (_ _ : ℕ) => mkRat 89996 100000) 0 1 < mkRat 9 10 ∧
    detect_duplicates [⟨"A", "ta"⟩, ⟨"B", "tb"⟩]
        (fun _ _ => mkRat 89996 100000) (mkRat 9 10) =
      [⟨"A", "B", mkRat 9 10⟩] := by
  constructor
  · decide
  · decide

/-- C3, amended: `detect_duplicates` returns the empty list for fewer than
two resumes without error, and otherwise one record per unordered pair of
distinct resumes (indices i < j, each pair exactly once, no self pairs and
no reverse-direction pairs) whose similarity, after rounding to four
decimals, is at least the threshold. -/
theorem C3_detect_duplicates_pairs :
    (∀ sim θ, detect_duplicates [] sim θ = []) ∧
    (∀ r sim θ, detect_duplicates [r] sim θ = []) ∧
    (∀ resumes sim θ, detect_duplicates resumes sim θ =
      ((ltPairs resumes.length).filter fun p => decide (θ ≤ round4 (sim p.1 p.2))).map
        fun p => ⟨(resumes.map fun r => r.name).getD p.1 "",
          (resumes.map fun r => r.name).getD p.2 "", round4 (sim p.1 p.2)⟩) ∧
    (∀ n p, p ∈ ltPairs n → p.1 < p.2 ∧ p.2 < n) ∧
    (∀ n i j, i < j → j < n → (i, j) ∈ ltPairs n) ∧
    (∀ n, (ltPairs n).Nodup) := by
  refine ⟨fun sim θ => rfl, fun r sim θ => rfl, detect_duplicates_eq, ?_, ?_, ltPairs_nodup⟩
  · rintro n ⟨i, j⟩ hp
    exact (ltPairs_mem n i j).mp hp
  · intro n i j hij hjn
    exact (ltPairs_mem n i j).mpr ⟨hij, hjn⟩

/-- C3, witness: the pair properties evaluated at n = 2 and p = (0, 1). -/
theorem C3_detect_duplicates_pairs_witness :
    (((0, 1) : ℕ × ℕ) ∈ ltPairs 2 ∧ ((0, 1) : ℕ × ℕ).1 < ((0, 1) : ℕ × ℕ).2 ∧
      ((0, 1) : ℕ × ℕ).2 < 2) ∧
    ((0 : ℕ) < 1 ∧ (1 : ℕ) < 2 ∧ ((0, 1) : ℕ × ℕ) ∈ ltPairs 2) :=
  ⟨⟨by decide, C3_detect_duplicates_pairs.2.2.2.1 2 (0, 1) (by decide)⟩,
   ⟨by decide, by decide, C3_detect_duplicates_pairs.2.2.2.2.1 2 0 1 (by decide) (by decide)⟩⟩

/-- C10: every record emitted by `detect_duplicates` carries the pairwise
similarity rounded to four decimals, and it is that rounded value that was
compared against the threshold; consequently two resumes with exact
similarity 0.89996 under threshold 0.90 are still reported as a duplicate
pair with recorded similarity 0.9. -/
theorem C10_round_before_threshold :
    (∀ resumes sim θ r, r ∈ detect_duplicates resumes sim θ →
      ∃ i j, i < j ∧ j < resumes.length ∧
        r.similarity = round4 (sim i j) ∧ θ ≤ round4 (sim i j)) ∧
    ((mkRat 89996 100000 : ℚ) < mkRat 9 10 ∧
      round4 (mkRat 89996 100000) = mkRat 9 10 ∧
      detect_duplicates [⟨"C", "tc"⟩, ⟨"D", "td"⟩]
          (fun _ _ => mkRat 89996 100000) (mkRat 9 10) =
        [⟨"C", "D", mkRat 9 10⟩]) := by
  constructor
  · intro resumes sim θ r hr
    rw [detect_duplicates_eq] at hr
    obtain ⟨p, hp, rfl⟩ := List.mem_map.mp hr
    obtain ⟨hmem, hθ⟩ := List.mem_filter.mp hp
    obtain ⟨hij, hjn⟩ := (ltPairs_mem _ p.1 p.2).mp (by
      rcases p with ⟨i, j⟩
      exact hmem)
    exact ⟨p.1, p.2, hij, hjn, rfl, of_decide_eq_true hθ⟩
  · refine ⟨by decide, by decide, by decide⟩

/-- C10, witness: the soundness direction applied to the concrete record
produced by the 0.89996 example. -/
theorem C10_round_before_threshold_witness :
    ((⟨"C", "D", mkRat 9 10⟩ : DupRecord) ∈
      detect_duplicates [⟨"C", "tc"⟩, ⟨"D", "td"⟩]
        (fun _ _ => mkRat 89996 100000) (mkRat 9 10)) ∧
    (∃ i j, i < j ∧ j < ([⟨"C", "tc"⟩, ⟨"D", "td"⟩] : List ResumeInput).length ∧
      (⟨"C", "D", mkRat 9 10⟩ : DupRecord).similarity =
        round4 ((fun (_ _ : ℕ) => mkRat 89996 100000) i j) ∧
      mkRat 9 10 ≤ round4 ((fun (_ _ : ℕ) => mkRat 89996 100000) i j)) :=
  ⟨by decide,
   C10_round_before_threshold.1 [⟨"C", "tc"⟩, ⟨"D", "td"⟩]
     (fun _ _ => mkRat 89996 100000) (mkRat 9 10) ⟨"C", "D", mkRat 9 10⟩ (by decide)⟩
